import Mathlib

/-!
Verification of the media-bot backend (`src/main.py`) against its
natural-language specification.

Strings are modelled as `List Char` (Python `str`).  Python's substring
test `pat in s` is modelled by `List.IsInfix` (`<:+:`), `s.startswith p`
by `<+:` and `s.endswith p` by `<:+`.  The filesystem is modelled as a
list of paths (with sizes where relevant).  All definitions are
translated directly from the source file; section comments cite the
source line numbers.
-/

namespace SmartMediaBot

/-- The character class `[A-Za-z0-9_-]` used by the regexes in
`main.py` (the `/file/{video_id}` guard at line 191, the shorts id at
line 107 and the Instagram shortcode at line 253). -/
def wordChar (c : Char) : Bool :=
  (65 ≤ c.toNat && c.toNat ≤ 90) || (97 ≤ c.toNat && c.toNat ≤ 122) ||
  (48 ≤ c.toNat && c.toNat ≤ 57) || c = '_' || c = '-'

/-! ## Credential store (lines 34, 64-72, 114-121)

`COOKIE_FILE` is a single process-wide path (`os.getenv("COOKIES_FILE",
"cookies.txt")`, line 34); there is no per-user component.  The store
state is the optional content of that one file. -/

def netscapeFull : List Char := "Netscape HTTP Cookie File".toList

def netscapeShort : List Char := "Netscape".toList

/-- `is_valid_cookie_file` (lines 64-72): the file exists and its first
200 characters contain "Netscape HTTP Cookie File" or "Netscape". -/
def is_valid_cookie_file : Option (List Char) → Bool
  | none => false
  | some s =>
    if netscapeFull <:+: s.take 200 ∨ netscapeShort <:+: s.take 200 then true else false

/-- Writing cookie material (e.g. `auto_export_browser_cookies`, lines
74-103, or placing a `cookies.txt`): the single global `COOKIE_FILE` is
overwritten; the identity of the user the material came from is not
recorded anywhere (the path at line 34 has no user component). -/
def store_cookies (_userId : Nat) (content : List Char)
    (_old : Option (List Char)) : Option (List Char) :=
  some content

/-- The cookie bundle used when processing a request: `yt_dlp_get_info`
(lines 114-121) and `download_with_yt_dlp` (lines 136-137) attach
`COOKIE_FILE` to the engine options whenever it is valid, for every
request, with no reference to any user id. -/
def cookie_file_for (_userId : Nat) (globalFile : Option (List Char)) :
    Option (List Char) :=
  if is_valid_cookie_file globalFile then globalFile else none

/-! ## Format selection (lines 129-135)

`download_with_yt_dlp` builds `ydl_opts` with a constant `"format"`
expression and `"merge_output_format": "mp4"`.  No quality choice is
consulted anywhere in the program; the selection step is the constant
below, regardless of its input. -/

def ydl_format : List Char :=
  "bestvideo[ext=mp4]+bestaudio[ext=m4a]/best[ext=mp4]/best".toList

def merge_output_format : List Char := "mp4".toList

/-- The format-selection step: the source has no quality-dependent
branch, so for every quality input the expression of line 132 is used. -/
def select_format (_quality : List Char) : List Char := ydl_format

/-! ## `normalize_youtube_url` (lines 105-112) -/

def shortsPat : List Char := "shorts/".toList

def mHost : List Char := "m.youtube.com".toList

def wwwHost : List Char := "www.youtube.com".toList

def watchUrlBase : List Char := "https://www.youtube.com/watch?v=".toList

/-- `re.search(r"shorts/([A-Za-z0-9_-]+)", url)`: the leftmost position
where `shorts/` is followed by at least one word character; the
captured group is the greedy run of word characters after it. -/
def findShorts : List Char → Option (List Char)
  | [] => none
  | c :: t =>
    if shortsPat.isPrefixOf (c :: t) then
      let run := ((c :: t).drop 7).takeWhile wordChar
      if run.isEmpty then findShorts t else some run
    else findShorts t

/-- Python `url.replace("m.youtube.com", "www.youtube.com")`:
left-to-right, non-overlapping replacement of every occurrence.  The
recursion is made structural with a fuel argument that starts at the
length of the string; each step consumes at least one character and one
unit of fuel, so the fuel never runs out on reachable calls. -/
def replaceHostAux : Nat → List Char → List Char
  | 0, l => l
  | _ + 1, [] => []
  | f + 1, c :: t =>
    if mHost.isPrefixOf (c :: t) then wwwHost ++ replaceHostAux f (t.drop 12)
    else c :: replaceHostAux f t

def replaceHost (l : List Char) : List Char := replaceHostAux l.length l

/-- Lines 110-112: the `m.youtube.com` host rewrite applied after the
shorts check. -/
def hostFix (u : List Char) : List Char :=
  if mHost <:+: u then replaceHost u else u

/-- `normalize_youtube_url` (lines 105-112).  The `shorts/` branch
returns a watch URL when the regex matches; otherwise control falls
through to the `m.youtube.com` replacement. -/
def normalize_youtube_url (u : List Char) : List Char :=
  if shortsPat <:+: u then
    match findShorts u with
    | some vid => watchUrlBase ++ vid
    | none => hostFix u
  else hostFix u

/-! ## `download_with_yt_dlp` output normalization (lines 139-152)

After the engine fetch, `path = ydl.prepare_filename(info)`.  If it does
not end in `.mp4`, the code computes `new_path = os.path.splitext(path)[0]
+ ".mp4"`, renames the file only when `os.path.exists(path) and not
os.path.exists(new_path)`, and (barring an OS exception, which the pure
model excludes) returns `new_path` in either case.  The filesystem is a
list of paths. -/

def mp4Ext : List Char := ".mp4".toList

/-- Index of the last occurrence of `c` in `p` (Python `str.rfind`). -/
def lastIdxOf (c : Char) (p : List Char) : Option Nat :=
  ((p.enum.filter (fun q => q.2 = c)).map Prod.fst).getLast?

/-- `os.path.splitext(p)[0]` (posixpath): split at the last dot when it
lies after the last separator and some earlier character of the base
name is not a dot; otherwise there is no extension. -/
def splitExtBase (p : List Char) : List Char :=
  match lastIdxOf '.' p with
  | none => p
  | some d =>
    let bstart := match lastIdxOf '/' p with
      | none => 0
      | some s => s + 1
    if bstart ≤ d ∧ ((p.drop bstart).take (d - bstart)).any (fun c => c ≠ '.') then
      p.take d
    else p

/-- The tail of `download_with_yt_dlp` (lines 142-152): given the path
the engine prepared and the disk state, yield the returned path and the
new disk state. -/
def finalize_download_path (path : List Char) (fs : List (List Char)) :
    List Char × List (List Char) :=
  if mp4Ext <:+ path then (path, fs)
  else
    let newPath := splitExtBase path ++ mp4Ext
    if path ∈ fs ∧ newPath ∉ fs then (newPath, newPath :: fs.erase path)
    else (newPath, fs)

/-! ## `/file/{video_id}` endpoint, `stream_file` (lines 185-213)

The disk state is a list of `(path, size-in-bytes)` entries.  The
endpoint validates the id with `re.fullmatch(r"[A-Za-z0-9_-]{4,}", ...)`
(line 191), serves `DOWNLOAD_DIR/<id>.mp4` from cache if present, and
otherwise downloads (producing some engine path `dlPath`) and moves the
result to `DOWNLOAD_DIR/<id>.mp4` before serving it.  No size is ever
inspected and no file is ever deleted; the unused `background_tasks`
parameter of line 186 schedules nothing. -/

def downloadDir : List Char := "/tmp/downloads".toList

/-- `re.fullmatch(r"[A-Za-z0-9_-]{4,}", video_id)` (line 191). -/
def valid_video_id (vid : List Char) : Prop :=
  4 ≤ vid.length ∧ vid.all wordChar = true

instance (vid : List Char) : Decidable (valid_video_id vid) := by
  unfold valid_video_id; infer_instance

/-- `DOWNLOAD_DIR / f"{video_id}.mp4"` (line 194), with the default
`DOWNLOAD_DIR` of line 35. -/
def file_target (vid : List Char) : List Char :=
  downloadDir ++ '/' :: (vid ++ mp4Ext)

inductive StreamResult where
  | badRequest
  | served (path : List Char)
  deriving DecidableEq

/-- `stream_file` (lines 185-213), with the download-and-move branch
modelled exception-free: the engine writes `dlPath` (size `dlSize`) and
`shutil.move` relocates it to the target name. -/
def stream_file (fs : List (List Char × Nat)) (vid dlPath : List Char)
    (dlSize : Nat) : StreamResult × List (List Char × Nat) :=
  if ¬ valid_video_id vid then (.badRequest, fs)
  else
    let target := file_target vid
    if fs.any (fun e => e.1 = target) then (.served target, fs)
    else
      let fsDl := (dlPath, dlSize) :: fs
      (.served target, (target, dlSize) :: fsDl.eraseP (fun e => e.1 = dlPath))

/-! ## Telegram webhook handler, `telegram_webhook` (lines 227-284)

The handler is a function of the bot configuration flag (line 42), the
inbound POST, and the outcome of the two external probes (instaloader
and `yt_dlp_get_info`), returning the HTTP status of the response and
the list of outbound bot actions in order.  Two error paths precede any
handling: `await request.json()` (line 232) raises on a body that is
not valid JSON, and `message["chat"]["id"]` (line 236) raises
`KeyError`/`TypeError` on a truthy but malformed message object; both
exceptions are unhandled, so the framework answers HTTP 500 with no
outbound action.  Every failure of the `try` block of lines 250-284 is
caught at line 281 and turned into the message of line 283. -/

def base_url : List Char := "https://ai-smart-media-downloader.onrender.com".toList

def startCmd : List Char := "/start".toList

def igHostPat : List Char := "instagram.com".toList

/-- Inbound webhook POSTs: a body that is not valid JSON (line 232
raises), a parsed body whose `message` and `edited_message` are both
falsy (lines 233-235), a truthy but malformed message object on which
`message["chat"]["id"]` raises (line 236), or a well-formed message
with its chat id and text (line 237, `text` defaulting to `""`). -/
inductive TgUpdate where
  | badJson
  | noMessage
  | malformedMessage
  | message (chatId : Int) (text : List Char)

/-- `instaloader.Post` fields consumed at lines 259-265. -/
structure IgPost where
  caption : Option (List Char)
  isVideo : Bool
  videoUrl : List Char
  postUrl : List Char

/-- `yt_dlp` info fields consumed at lines 270-272. -/
structure YtInfo where
  vid : List Char
  title : Option (List Char)
  thumb : Option (List Char)

/-- Outcomes of the external calls inside the `try` block; `.error e`
carries `str(e)` of the raised exception. -/
structure ProbeWorld where
  igPost : Except (List Char) IgPost
  ytInfo : Except (List Char) YtInfo

inductive Outbound where
  | sendMsg (chatId : Int) (text : List Char)
  | sendMsgKb (chatId : Int) (text buttonUrl : List Char)
  | sendPhotoKb (chatId : Int) (photo caption buttonUrl : List Char)
  deriving DecidableEq

def greetingMsg : List Char :=
  "👋 Hi! Send a YouTube / Instagram / TikTok link to get the download link.".toList

def helpMsg : List Char :=
  "⚠️ Please send a valid media URL (youtube, instagram, tiktok, facebook).".toList

def fetchingMsg : List Char := "🔍 Fetching media info... please wait ⏳".toList

def invalidIgMsg : List Char := "❌ Invalid Instagram URL".toList

def errMsgHead : List Char := "❌ Error fetching media: ".toList

/-- Line 243: `any(x in text for x in ["youtube", "youtu.be",
"instagram", "tiktok", "facebook"])`. -/
def keyword_gate (text : List Char) : Prop :=
  "youtube".toList <:+: text ∨ "youtu.be".toList <:+: text ∨
  "instagram".toList <:+: text ∨ "tiktok".toList <:+: text ∨
  "facebook".toList <:+: text

instance (text : List Char) : Decidable (keyword_gate text) := by
  unfold keyword_gate; infer_instance

/-- Modelled from the spec: "Text payload interpreted as a candidate URL
(validated against a general URL pattern before acceptance)".  The code
has no such pattern (line 243 is a keyword substring test), so the
general URL pattern the spec describes is modelled here as acceptance of
strings carrying an explicit http/https scheme. -/
def is_general_url (t : List Char) : Bool :=
  "http://".toList.isPrefixOf t || "https://".toList.isPrefixOf t

/-- `re.search(r"(?:reel|p)/([A-Za-z0-9_-]+)", text)` (line 253):
leftmost position where `reel/` (or, failing that, `p/`) is followed by
at least one word character. -/
def findShortcode : List Char → Option (List Char)
  | [] => none
  | c :: t =>
    if "reel/".toList.isPrefixOf (c :: t) then
      let run := ((c :: t).drop 5).takeWhile wordChar
      if run.isEmpty then findShortcode t else some run
    else if "p/".toList.isPrefixOf (c :: t) then
      let run := ((c :: t).drop 2).takeWhile wordChar
      if run.isEmpty then findShortcode t else some run
    else findShortcode t

/-- The Instagram branch (lines 252-266) after the fetching message. -/
def igBranch (chatId : Int) (text : List Char) (w : ProbeWorld) : Outbound :=
  match findShortcode text with
  | none => .sendMsg chatId invalidIgMsg
  | some _ =>
    match w.igPost with
    | .error e => .sendMsg chatId (errMsgHead ++ e)
    | .ok post =>
      let title := post.caption.getD "Instagram post".toList
      let downloadLink := if post.isVideo then post.videoUrl else post.postUrl
      let caption := "📸 ".toList ++ title ++ "\n🔗 Download link below".toList
      .sendPhotoKb chatId post.postUrl caption downloadLink

/-- The yt-dlp branch (lines 268-280) after the fetching message. -/
def ytBranch (chatId : Int) (w : ProbeWorld) : Outbound :=
  match w.ytInfo with
  | .error e => .sendMsg chatId (errMsgHead ++ e)
  | .ok info =>
    let title := info.title.getD "Untitled".toList
    let downloadUrl := base_url ++ "/file/".toList ++ info.vid
    let caption := "🎬 ".toList ++ title ++ "\n🔗 ".toList ++ downloadUrl
    match info.thumb with
    | some th => .sendPhotoKb chatId th caption downloadUrl
    | none => .sendMsgKb chatId caption downloadUrl

/-- `telegram_webhook` (lines 227-284): HTTP status of the response and
the outbound actions, in order.  The `badJson` and `malformedMessage`
inputs raise before any handling (lines 232 and 236), so the framework
answers 500 with no outbound action. -/
def telegram_webhook (botConfigured : Bool) (upd : TgUpdate) (w : ProbeWorld) :
    Nat × List Outbound :=
  if ¬ botConfigured then (500, [])
  else
    match upd with
    | .badJson => (500, [])
    | .noMessage => (200, [])
    | .malformedMessage => (500, [])
    | .message chatId text =>
      if startCmd <+: text then (200, [.sendMsg chatId greetingMsg])
      else if ¬ keyword_gate text then (200, [.sendMsg chatId helpMsg])
      else
        let fetching := Outbound.sendMsg chatId fetchingMsg
        if igHostPat <:+: text then
          (200, [fetching, igBranch chatId text w])
        else
          (200, [fetching, ytBranch chatId w])

/-! ## Helper lemmas -/

theorem wordChar_ne_slash (c : Char) (h : wordChar c = true) : c ≠ '/' := by
  intro he
  subst he
  exact absurd h (by decide)

theorem wordChar_ne_dot (c : Char) (h : wordChar c = true) : c ≠ '.' := by
  intro he
  subst he
  exact absurd h (by decide)

/-- A word-character string followed by `.mp4` never contains `..`. -/
theorem no_dotdot_in_id_mp4 (l : List Char) (hall : ∀ c ∈ l, wordChar c = true) :
    ¬ (['.', '.'] <:+: (l ++ mp4Ext)) := by
  induction l with
  | nil => decide
  | cons c t ih =>
    intro hinf
    rcases List.infix_cons_iff.mp hinf with hp | hi
    · obtain ⟨he, -⟩ := List.cons_prefix_cons.mp hp
      exact wordChar_ne_dot c (hall c (List.mem_cons_self c t)) he.symm
    · exact ih (fun x hx => hall x (List.mem_cons_of_mem _ hx)) hi

/-- A request with a valid id is always answered by serving the target
path, whatever the disk state and sizes. -/
theorem stream_file_served (fs : List (List Char × Nat)) (vid dlPath : List Char)
    (dlSize : Nat) (h : valid_video_id vid) :
    (stream_file fs vid dlPath dlSize).1 = .served (file_target vid) := by
  unfold stream_file
  rw [if_neg (not_not_intro h)]
  by_cases hc : fs.any (fun e => e.1 = file_target vid) = true <;> simp [file_target] at hc ⊢ <;>
    simp [hc]

/-! ## Claim C1 — transport size ceiling

The delivery path (`stream_file`) never inspects an artifact's size:
there is no 50 MiB (52428800 bytes) ceiling anywhere in the source, and
an oversized artifact is served rather than rejected. -/

/-- C1 counterexample: a cached artifact of 80 MiB (83886080 bytes,
above the 50 MiB ceiling of 52428800 bytes) is handed to the transport
as a successful serve; no `TooLarge` error is produced. -/
theorem C1_counterexample :
    (stream_file [(file_target "abcd".toList, 83886080)] "abcd".toList [] 0).1 =
      .served (file_target "abcd".toList) ∧
    52428800 < 83886080 := by
  constructor
  · decide
  · decide

/-- C1 amended: the delivery path performs no size check at all: for
every disk state and every artifact size, a request with a valid id is
answered by serving `DOWNLOAD_DIR/<id>.mp4`, never by a size error. -/
theorem C1_amended_thm (fs : List (List Char × Nat)) (vid dlPath : List Char)
    (dlSize : Nat) (h : valid_video_id vid) :
    (stream_file fs vid dlPath dlSize).1 = .served (file_target vid) :=
  stream_file_served fs vid dlPath dlSize h

/-- C1 witness: the amended theorem at a concrete valid id. -/
theorem C1_witness :
    (stream_file [] "dQw4w9WgXcQ".toList [] 7).1 =
      .served (file_target "dQw4w9WgXcQ".toList) :=
  C1_amended_thm [] "dQw4w9WgXcQ".toList [] 7 (by decide)

/-! ## Claim C2 — artifact deletion after delivery

`stream_file` deletes nothing: the `background_tasks` parameter is
unused and files are deliberately kept as a cache (the `file_path.exists()`
branch of line 195 serves them on later requests). -/

/-- C2 counterexample: after a successful delivery of the cached
artifact for id "abcd", the artifact is still on disk — the post-state
equals the pre-state and still contains the artifact. -/
theorem C2_counterexample :
    (stream_file [(file_target "abcd".toList, 10485760)] "abcd".toList [] 0).2 =
      [(file_target "abcd".toList, 10485760)] ∧
    (file_target "abcd".toList, 10485760) ∈
      (stream_file [(file_target "abcd".toList, 10485760)] "abcd".toList [] 0).2 := by
  constructor
  · decide
  · decide

/-- C2 amended: no file is ever removed by a delivery attempt:  every
file present before a `stream_file` call is still present afterwards
(artifacts are kept and served from cache on subsequent requests). -/
theorem C2_amended_thm (fs : List (List Char × Nat)) (vid dlPath : List Char)
    (dlSize : Nat) (p : List Char × Nat) (hp : p ∈ fs) :
    p ∈ (stream_file fs vid dlPath dlSize).2 := by
  unfold stream_file
  by_cases hv : ¬ valid_video_id vid
  · rw [if_pos hv]; exact hp
  · rw [if_neg hv]
    by_cases hc : fs.any (fun e => e.1 = file_target vid) = true
    · simp only [hc, if_true]; exact hp
    · simp only [hc, if_false]
      have herase :
          ((dlPath, dlSize) :: fs).eraseP (fun e => decide (e.1 = dlPath)) = fs := by
        rw [List.eraseP_cons_of_pos]
        simp
      simp only [herase]
      exact List.mem_cons_of_mem _ hp

/-- C2 witness: the amended theorem at a concrete disk state. -/
theorem C2_witness :
    (file_target "wxyz".toList, 5) ∈
      (stream_file [(file_target "wxyz".toList, 5)] "wxyz".toList [] 0).2 :=
  C2_amended_thm [(file_target "wxyz".toList, 5)] "wxyz".toList [] 0
    (file_target "wxyz".toList, 5) (by decide)

/-! ## Claim C3 — credential isolation

`COOKIE_FILE` (line 34) is one process-wide path with no user
component; `yt_dlp_get_info` (lines 117-118) attaches it to every
request whoever issued it, so a bundle stored by one user is read when
processing any other user's request. -/

/-- C3 counterexample: user 0 stores a cookie bundle; the request
processing for the distinct user 1 uses exactly that bundle. -/
theorem C3_counterexample :
    cookie_file_for 1 (store_cookies 0 "# Netscape HTTP Cookie File\n".toList none) =
      some "# Netscape HTTP Cookie File\n".toList ∧
    (0 : Nat) ≠ 1 := by
  constructor
  · decide
  · decide

/-- C3 amended: credential state is a single process-wide cookie file
shared by all users: storing ignores the user id, and every user's
request resolves the same bundle. -/
theorem C3_amended_thm :
    (∀ (u v : Nat) (g : Option (List Char)), cookie_file_for u g = cookie_file_for v g) ∧
    (∀ (u v : Nat) (c : List Char) (g g' : Option (List Char)),
      store_cookies u c g = store_cookies v c g') :=
  ⟨fun _ _ _ => rfl, fun _ _ _ _ _ => rfl⟩

/-! ## Claim C4 — no internal error detail in user messages

Line 283 sends `f"❌ Error fetching media: {e}"`: the raw `str(e)` of
the caught exception is embedded verbatim in the user-visible message. -/

/-- C4 counterexample: a failing metadata probe whose exception text is
a raw upstream error produces a user message that contains that raw
text as a substring. -/
theorem C4_counterexample :
    (telegram_webhook true
        (.message 1 "https://www.youtube.com/watch?v=dQw4w9WgXcQ".toList)
        ⟨.error [], .error "DownloadError: HTTP Error 403: Forbidden".toList⟩).2 =
      [.sendMsg 1 fetchingMsg,
       .sendMsg 1 (errMsgHead ++ "DownloadError: HTTP Error 403: Forbidden".toList)] ∧
    "DownloadError: HTTP Error 403: Forbidden".toList <:+:
      (errMsgHead ++ "DownloadError: HTTP Error 403: Forbidden".toList) := by
  constructor
  · decide
  · decide

/-- C4 amended: on an internal failure of the yt-dlp probe the user is
sent the fixed head "❌ Error fetching media: " followed by the raw
exception text — the raw detail is surfaced to the end user, not only
logged. -/
theorem C4_amended_thm (chatId : Int) (text e : List Char) (w : ProbeWorld)
    (h1 : ¬ (startCmd <+: text)) (h2 : keyword_gate text)
    (h3 : ¬ (igHostPat <:+: text)) (h4 : w.ytInfo = .error e) :
    (telegram_webhook true (.message chatId text) w).2 =
      [.sendMsg chatId fetchingMsg, .sendMsg chatId (errMsgHead ++ e)] := by
  simp [telegram_webhook, h1, h2, h3, ytBranch, h4]

/-- C4 witness: the amended theorem at a concrete text and error. -/
theorem C4_witness :
    (telegram_webhook true (.message 2 "https://youtu.be/xyz_12".toList)
        ⟨.error [], .error "Sign in to confirm you are not a bot".toList⟩).2 =
      [.sendMsg 2 fetchingMsg,
       .sendMsg 2 (errMsgHead ++ "Sign in to confirm you are not a bot".toList)] :=
  C4_amended_thm 2 "https://youtu.be/xyz_12".toList
    "Sign in to confirm you are not a bot".toList _
    (by decide) (by decide) (by decide) rfl

/-! ## Claim C5 — webhook always answers HTTP 200

All processing branches of the handler answer 200, but three inbound
POSTs are answered 500: the unconfigured-bot guard of lines 230-231,
a body that is not valid JSON (line 232 raises, unhandled), and a
truthy but malformed message object (line 236 raises, unhandled). -/

/-- C6 counterexample: for an unrecognized quality input the selection
yields the constant expression of line 132, not the "best" fallback
expression — the same constant is returned for the enumerated quality
"720p" as well. -/
theorem C6_counterexample :
    select_format "720p".toList = ydl_format ∧
    select_format "not-a-quality".toList = ydl_format ∧
    ydl_format ≠ "best".toList := by
  refine ⟨rfl, rfl, ?_⟩
  decide

/-- C6 amended: format selection ignores the quality choice entirely:
it is total and never fails, and every input — recognized or not —
yields the same non-empty constant expression
`bestvideo[ext=mp4]+bestaudio[ext=m4a]/best[ext=mp4]/best` (whose final
alternative is the best-available fallback). -/
theorem C6_amended_thm (q q' : List Char) :
    select_format q = select_format q' ∧ select_format q = ydl_format ∧
    select_format q ≠ [] := by
  refine ⟨rfl, rfl, ?_⟩
  show ydl_format ≠ []
  decide

/-! ## Claim C8 — URL validation of inbound text

Line 243 gates on platform-keyword substrings, not on a URL pattern:
non-URL text containing a keyword is processed, and URL-shaped text
without a keyword gets the help message. -/

/-- C8 counterexample: the non-URL text "i will watch youtube tomorrow"
passes the gate: no help message is sent and metadata resolution is
attempted (the fetching notice is sent), although the text matches no
general URL pattern. -/
theorem C8_counterexample :
    is_general_url "i will watch youtube tomorrow".toList = false ∧
    (telegram_webhook true (.message 1 "i will watch youtube tomorrow".toList)
        ⟨.error [], .error []⟩).2.head? = some (.sendMsg 1 fetchingMsg) ∧
    (telegram_webhook true (.message 1 "i will watch youtube tomorrow".toList)
        ⟨.error [], .error []⟩).2 ≠ [.sendMsg 1 helpMsg] := by
  refine ⟨?_, ?_, ?_⟩ <;> decide

/-- C8 amended: inbound text is gated by a platform-keyword substring
check, not a URL pattern: text without any of the five keywords gets
the help message and no further processing, while text containing a
keyword proceeds to metadata resolution whether or not it is a URL. -/
theorem C8_amended_thm (chatId : Int) (text : List Char) (w : ProbeWorld)
    (h0 : ¬ (startCmd <+: text)) :
    (¬ keyword_gate text →
      telegram_webhook true (.message chatId text) w = (200, [.sendMsg chatId helpMsg])) ∧
    (keyword_gate text →
      (telegram_webhook true (.message chatId text) w).2.head? =
        some (.sendMsg chatId fetchingMsg)) := by
  constructor
  · intro hk
    simp [telegram_webhook, h0, hk]
  · intro hk
    by_cases h3 : igHostPat <:+: text <;>
      simp [telegram_webhook, h0, hk, h3]

/-! ## Helper lemmas for claim C9

To show that the watch URL built by the shorts rewrite is a fixed point
of `normalize_youtube_url`, we prove that neither `shorts/` nor
`m.youtube.com` can occur in `watchUrlBase ++ id` when `id` consists of
word characters.  The invariant `matchBound pat B y` bounds the length
of any prefix of `pat` that is a suffix of `y`; appending a word
character cannot push a partial match past the non-word character of
`pat` at index `B`. -/

theorem occursInCons {l₁ l₂ : List Char} (a : Char) (h : l₁ <:+: l₂) :
    l₁ <:+: a :: l₂ := by
  obtain ⟨s, t, rfl⟩ := h
  exact ⟨a :: s, t, rfl⟩

theorem prefixOfIsPrefixOf {l₁ l₂ : List Char} (h : l₁.isPrefixOf l₂ = true) :
    l₁ <+: l₂ := by
  simpa using h

theorem suffixConcatInv {l y : List Char} {c d : Char}
    (h : (l ++ [c]) <:+ (y ++ [d])) : l <:+ y ∧ c = d := by
  rcases List.suffix_concat_iff.mp h with h0 | ⟨t, ht, hs⟩
  · exact absurd h0 (by simp)
  · obtain ⟨h1, h2⟩ := List.append_inj' ht (by simp)
    subst h1
    refine ⟨hs, ?_⟩
    injection h2

/-- Every prefix of `pat` of length at most `pat.length` that is a
suffix of `y` has length at most `B`. -/
def matchBound (pat : List Char) (B : Nat) (y : List Char) : Prop :=
  ∀ k, k ≤ pat.length → pat.take k <:+ y → k ≤ B

theorem matchBound_concat (pat : List Char) (B : Nat) (y : List Char) (d : Char)
    (hd : wordChar d = true)
    (hstop : ∀ c, pat[B]? = some c → wordChar c = false)
    (h : matchBound pat B y) : matchBound pat B (y ++ [d]) := by
  intro k hk hsuf
  cases k with
  | zero => exact Nat.zero_le B
  | succ k =>
    have hk1 : k < pat.length := hk
    rw [List.take_succ, List.getElem?_eq_getElem hk1, Option.toList_some] at hsuf
    obtain ⟨hs, he⟩ := suffixConcatInv hsuf
    have hkB : k ≤ B := h k (Nat.le_of_lt hk1) hs
    rcases Nat.lt_or_eq_of_le hkB with hlt | heq
    · exact hlt
    · exfalso
      have hc : wordChar (pat[k]) = false := by
        apply hstop
        rw [← heq]
        exact List.getElem?_eq_getElem hk1
      rw [he, hd] at hc
      cases hc

/-- Appending word characters to `y` can neither create an occurrence
of `pat` nor break the partial-match bound, provided `pat`'s character
at the bound index is not a word character. -/
theorem patNotInWordExtension (pat : List Char) (B : Nat) (hlen : B < pat.length)
    (hstop : ∀ c, pat[B]? = some c → wordChar c = false)
    (y : List Char) (hyi : ¬ (pat <:+: y)) (hym : matchBound pat B y) :
    ∀ id : List Char, (∀ c ∈ id, wordChar c = true) →
      ¬ (pat <:+: (y ++ id)) ∧ matchBound pat B (y ++ id) := by
  intro id
  induction id using List.reverseRecOn with
  | nil =>
    intro _
    rw [List.append_nil]
    exact ⟨hyi, hym⟩
  | append_singleton l a ih =>
    intro hall
    have hl : ∀ c ∈ l, wordChar c = true := fun c hc => hall c (by simp [hc])
    have ha : wordChar a = true := hall a (by simp)
    obtain ⟨hinf, hmb⟩ := ih hl
    rw [← List.append_assoc]
    have hmb2 : matchBound pat B ((y ++ l) ++ [a]) :=
      matchBound_concat pat B (y ++ l) a ha hstop hmb
    refine ⟨?_, hmb2⟩
    intro hcontra
    rcases List.infix_concat_iff.mp hcontra with hsuf | hinf2
    · have := hmb2 pat.length (Nat.le_refl _) (by simpa [List.take_length] using hsuf)
      omega
    · exact hinf hinf2

theorem shortsStop (c : Char) (h : shortsPat[6]? = some c) : wordChar c = false := by
  have he : shortsPat[6]? = some '/' := by decide
  rw [he] at h
  injection h with h2
  subst h2
  decide

theorem mHostStop (c : Char) (h : mHost[1]? = some c) : wordChar c = false := by
  have he : mHost[1]? = some '.' := by decide
  rw [he] at h
  injection h with h2
  subst h2
  decide

theorem matchBoundShortsBase : matchBound shortsPat 6 watchUrlBase := by
  unfold matchBound
  decide

theorem matchBoundMHostBase : matchBound mHost 1 watchUrlBase := by
  unfold matchBound
  decide

/-- The output of the shorts rewrite is a fixed point of
`normalize_youtube_url` whenever the captured id is made of word
characters. -/
theorem watchUrlFixed (id : List Char) (hall : ∀ c ∈ id, wordChar c = true) :
    normalize_youtube_url (watchUrlBase ++ id) = watchUrlBase ++ id := by
  obtain ⟨hs, -⟩ := patNotInWordExtension shortsPat 6 (by decide) shortsStop
    watchUrlBase (by decide) matchBoundShortsBase id hall
  obtain ⟨hm, -⟩ := patNotInWordExtension mHost 1 (by decide) mHostStop
    watchUrlBase (by decide) matchBoundMHostBase id hall
  unfold normalize_youtube_url
  rw [if_neg hs]
  unfold hostFix
  rw [if_neg hm]

/-- When the shorts regex matches, the pattern occurs in the input and
the captured id is a run of word characters. -/
theorem findShorts_some (u id : List Char) (h : findShorts u = some id) :
    shortsPat <:+: u ∧ ∀ c ∈ id, wordChar c = true := by
  induction u with
  | nil => simp [findShorts] at h
  | cons c t ih =>
    simp only [findShorts] at h
    by_cases hp : shortsPat.isPrefixOf (c :: t) = true
    · rw [if_pos hp] at h
      by_cases hr : (((c :: t).drop 7).takeWhile wordChar).isEmpty = true
      · rw [if_pos hr] at h
        obtain ⟨hi, hw⟩ := ih h
        exact ⟨occursInCons c hi, hw⟩
      · rw [if_neg hr] at h
        injection h with h2
        subst h2
        refine ⟨ List.IsPrefix.isInfix (prefixOfIsPrefixOf hp), ?_⟩
        intro x hx
        exact List.mem_takeWhile_imp hx
    · rw [if_neg hp] at h
      obtain ⟨hi, hw⟩ := ih h
      exact ⟨occursInCons c hi, hw⟩

/-! ## Claim C9 — idempotence of URL normalization

`normalize_youtube_url` is not idempotent on all strings: replacing
`m.youtube.com` by `www.youtube.com` can create a fresh occurrence of
`m.youtube.com` at the seam, which a second application rewrites
again.  On inputs free of `m.youtube.com` the function is idempotent
(in particular every shorts rewrite lands on a fixed point). -/

/-- C9 counterexample: on `"m.youtube.com.youtube.com"` the first
application yields `"www.youtube.com.youtube.com"`, which still
contains `m.youtube.com` (ending at the seam), so the second
application changes the string again. -/
theorem C9_counterexample :
    normalize_youtube_url (normalize_youtube_url "m.youtube.com.youtube.com".toList) ≠
      normalize_youtube_url "m.youtube.com.youtube.com".toList ∧
    normalize_youtube_url "m.youtube.com.youtube.com".toList =
      "www.youtube.com.youtube.com".toList ∧
    normalize_youtube_url "www.youtube.com.youtube.com".toList =
      "www.youtube.cowww.youtube.com".toList := by
  refine ⟨?_, ?_, ?_⟩ <;> decide

/-- C9 amended: `normalize_youtube_url` is idempotent on every input
that does not contain `m.youtube.com` as a substring (the shorts
rewrite lands on a fixed point and the remaining branches are the
identity); on inputs containing `m.youtube.com` the replacement can
create a fresh occurrence at a seam, so a second application may change
the string again. -/
theorem C9_amended_thm (u : List Char) (h : ¬ (mHost <:+: u)) :
    normalize_youtube_url (normalize_youtube_url u) = normalize_youtube_url u := by
  by_cases hs : shortsPat <:+: u
  · cases hfs : findShorts u with
    | none =>
      have h1 : normalize_youtube_url u = u := by
        unfold normalize_youtube_url
        rw [if_pos hs, hfs]
        show hostFix u = u
        unfold hostFix
        rw [if_neg h]
      rw [h1]
      exact h1
    | some vid =>
      obtain ⟨-, hw⟩ := findShorts_some u vid hfs
      have h1 : normalize_youtube_url u = watchUrlBase ++ vid := by
        unfold normalize_youtube_url
        rw [if_pos hs, hfs]
      rw [h1]
      exact watchUrlFixed vid hw
  · have h1 : normalize_youtube_url u = u := by
      unfold normalize_youtube_url
      rw [if_neg hs]
      unfold hostFix
      rw [if_neg h]
    rw [h1]
    exact h1

/-- C9 witness: the amended theorem on a concrete shorts URL. -/
theorem C9_witness :
    normalize_youtube_url
        (normalize_youtube_url "https://www.youtube.com/shorts/dQw4w9WgXcQ".toList) =
      normalize_youtube_url "https://www.youtube.com/shorts/dQw4w9WgXcQ".toList :=
  C9_amended_thm "https://www.youtube.com/shorts/dQw4w9WgXcQ".toList (by decide)

/-! ## Claim C10 — file-serving endpoint path safety

Line 191: ids not fully matching `[A-Za-z0-9_-]{4,}` are rejected with
a 400 before any filesystem access; for accepted ids the served and
created path is exactly `DOWNLOAD_DIR/<video_id>.mp4`, whose final
segment contains no separator and no `..`, so it cannot escape the
download directory. -/

/-- C10: invalid ids are rejected with a 400 before the filesystem is
touched (the disk state is returned unchanged); for every accepted id
the served path is exactly `DOWNLOAD_DIR/<video_id>.mp4` and its final
segment — made of `[A-Za-z0-9_-]` characters plus `.mp4` — contains no
`/` and no `..`, so the path never escapes the download directory. -/
theorem C10_thm (vid : List Char) (fs : List (List Char × Nat))
    (dlPath : List Char) (dlSize : Nat) :
    (¬ valid_video_id vid → stream_file fs vid dlPath dlSize = (.badRequest, fs)) ∧
    (valid_video_id vid →
      (stream_file fs vid dlPath dlSize).1 = .served (file_target vid) ∧
      file_target vid = downloadDir ++ '/' :: (vid ++ mp4Ext) ∧
      (∀ c ∈ vid ++ mp4Ext, c ≠ '/') ∧
      ¬ (['.', '.'] <:+: (vid ++ mp4Ext))) := by
  constructor
  · intro h
    unfold stream_file
    rw [if_pos h]
  · intro h
    have hall : ∀ c ∈ vid, wordChar c = true := fun c hc => List.all_eq_true.mp h.2 c hc
    refine ⟨stream_file_served fs vid dlPath dlSize h, rfl, ?_, ?_⟩
    · intro c hc
      rcases List.mem_append.mp hc with hcv | hce
      · exact wordChar_ne_slash c (hall c hcv)
      · exact (by decide : ∀ x ∈ mp4Ext, x ≠ '/') c hce
    · exact no_dotdot_in_id_mp4 vid hall

/-- C10 witness: the theorem at a concrete rejected id (too short) and
a concrete accepted id. -/
theorem C10_witness :
    stream_file [] "ab".toList "x".toList 0 = (.badRequest, []) ∧
    (stream_file [] "dQw4".toList "x".toList 3).1 = .served (file_target "dQw4".toList) :=
  ⟨(C10_thm "ab".toList [] "x".toList 0).1 (by decide),
   ((C10_thm "dQw4".toList [] "x".toList 3).2 (by decide)).1⟩

/-! ## Claim C7 — mp4 container normalization

Lines 143-151: when the prepared path does not end in `.mp4` the
returned path is always switched to the `.mp4` name, but the file
itself is renamed only when it exists and no file already occupies the
`.mp4` name; otherwise the artifact stays under its original name. -/

/-- C7 counterexample: the engine produced `abc.webm` while `abc.mp4`
already exists; the artifact is not renamed (the disk state is
unchanged and still holds the `.webm` file) even though its extension
differs from `.mp4`. -/
theorem C7_counterexample :
    (finalize_download_path "/tmp/downloads/abc.webm".toList
        ["/tmp/downloads/abc.webm".toList, "/tmp/downloads/abc.mp4".toList]).1 =
      "/tmp/downloads/abc.mp4".toList ∧
    (finalize_download_path "/tmp/downloads/abc.webm".toList
        ["/tmp/downloads/abc.webm".toList, "/tmp/downloads/abc.mp4".toList]).2 =
      ["/tmp/downloads/abc.webm".toList, "/tmp/downloads/abc.mp4".toList] ∧
    ¬ (mp4Ext <:+ "/tmp/downloads/abc.webm".toList) := by
  refine ⟨?_, ?_, ?_⟩ <;> decide

/-- C7 amended: the engine is asked to merge split streams into an mp4
container, and every returned path ends in `.mp4`; but when the
produced artifact's extension differs from `.mp4` the file is renamed
only if it exists and the `.mp4` name is free — in particular, when a
file already occupies the `.mp4` name nothing on disk is renamed and
the pre-existing `.mp4` path is returned. -/
theorem C7_amended_thm (path : List Char) (fs : List (List Char)) :
    merge_output_format = "mp4".toList ∧
    mp4Ext <:+ (finalize_download_path path fs).1 ∧
    (¬ (mp4Ext <:+ path) → splitExtBase path ++ mp4Ext ∈ fs →
      (finalize_download_path path fs).2 = fs) := by
  refine ⟨rfl, ?_, ?_⟩
  · unfold finalize_download_path
    by_cases h : mp4Ext <:+ path
    · rw [if_pos h]; exact h
    · rw [if_neg h]
      by_cases hmv : path ∈ fs ∧ splitExtBase path ++ mp4Ext ∉ fs
      · rw [if_pos hmv]; exact List.suffix_append _ _
      · rw [if_neg hmv]; exact List.suffix_append _ _
  · intro h hmem
    unfold finalize_download_path
    rw [if_neg h, if_neg (by simp [hmem])]

/-- C7 witness: the amended theorem at a concrete path whose `.mp4`
sibling is already on disk. -/
theorem C7_witness :
    mp4Ext <:+ (finalize_download_path "/tmp/downloads/vid1.webm".toList
      ["/tmp/downloads/vid1.mp4".toList]).1 ∧
    (finalize_download_path "/tmp/downloads/vid1.webm".toList
      ["/tmp/downloads/vid1.mp4".toList]).2 = ["/tmp/downloads/vid1.mp4".toList] :=
  ⟨(C7_amended_thm "/tmp/downloads/vid1.webm".toList
      ["/tmp/downloads/vid1.mp4".toList]).2.1,
   (C7_amended_thm "/tmp/downloads/vid1.webm".toList
      ["/tmp/downloads/vid1.mp4".toList]).2.2 (by decide) (by decide)⟩

/-- C8 witness: the amended theorem at concrete accepted and rejected
texts. -/
theorem C8_witness :
    telegram_webhook true (.message 5 "hello there".toList) ⟨.error [], .error []⟩ =
      (200, [.sendMsg 5 helpMsg]) ∧
    (telegram_webhook true (.message 5 "youtube please".toList)
        ⟨.error [], .error []⟩).2.head? = some (.sendMsg 5 fetchingMsg) :=
  ⟨(C8_amended_thm 5 "hello there".toList ⟨.error [], .error []⟩ (by decide)).1 (by decide),
   (C8_amended_thm 5 "youtube please".toList ⟨.error [], .error []⟩ (by decide)).2 (by decide)⟩

end SmartMediaBot
